import Mathlib

/-!
# Verification of the RunBookTimeline ingestion pipeline

Shallow embedding of `src/workshift.py`: the data ingestion, validation,
normalization and filtering pipeline that turns a tabular schedule file into a
clean dataset for Gantt rendering.  Timestamps are modelled as integers
(seconds on the civil calendar), pandas cells as an inductive `Cell`
(a missing value `NaN` or a string), and pandas reader calls as abstract
`Option`-valued functions supplied with the input file.
-/

namespace RunBookTimeline

/-- A timestamp: seconds relative to the Unix epoch on the proleptic
Gregorian calendar (the order- and difference-faithful image of Python
`datetime` values). -/
abbrev Timestamp := Int

/-- A raw table cell as pandas sees it: either missing (`NaN`, which is what
empty CSV fields become) or a string value. -/
inductive Cell where
  | missing : Cell
  | str : String → Cell
deriving DecidableEq, Repr

/-! ## Calendar arithmetic

`datetime` values are mapped to seconds using the standard civil-calendar
day-numbering algorithm, so that `<=` on timestamps and second differences
agree with Python `datetime` comparison and `timedelta.total_seconds()`. -/

/-- Gregorian leap-year test. -/
def isLeap (y : Nat) : Bool :=
  y % 4 == 0 && (y % 100 != 0 || y % 400 == 0)

/-- Number of days in month `m` of year `y` (months numbered 1..12). -/
def daysInMonth (y m : Nat) : Nat :=
  if m = 2 then (if isLeap y then 29 else 28)
  else if m = 4 ∨ m = 6 ∨ m = 9 ∨ m = 11 then 30
  else 31

/-- Days from 1970-01-01 to year `y`, month `m`, day `d` (standard
civil-from-days algorithm; all intermediate quantities are non-negative for
the years representable here). -/
def daysFromCivil (y m d : Nat) : Int :=
  let y' : Nat := if m ≤ 2 then y - 1 else y
  let era : Nat := y' / 400
  let yoe : Nat := y' - era * 400
  let mp : Nat := (m + 9) % 12
  let doy : Nat := (153 * mp + 2) / 5 + d - 1
  let doe : Nat := yoe * 365 + yoe / 4 - yoe / 100 + doy
  (era : Int) * 146097 + (doe : Int) - 719468

/-- Seconds since the epoch of the wall-clock datetime `y-m-d h:mi`. -/
def toSeconds (y m d h mi : Nat) : Timestamp :=
  daysFromCivil y m d * 86400 + (h : Int) * 3600 + (mi : Int) * 60

/-! ## `strptime` for the two formats the program uses

`parse_dates` uses the single pattern `'%d/%m/%y %H:%M'`; the window
boundaries use `'%d/%m/%Y %H:%M'`.  CPython's `strptime` matches each numeric
directive against one or two digits (exactly two for `%y`, exactly four for
`%Y`), a space against one or more whitespace characters, requires the whole
string to be consumed, and then validates the field ranges when the
`datetime` is constructed. -/

/-- Numeric value of a digit character. -/
def digitVal (c : Char) : Nat := c.toNat - 48

/-- Greedily read one or two digits (as `%d`, `%m`, `%H`, `%M` do, each being
followed by a non-digit literal or the end of the string). -/
def takeNum2 : List Char → Option (Nat × List Char)
  | c1 :: c2 :: rest =>
    if c1.isDigit then
      if c2.isDigit then some (digitVal c1 * 10 + digitVal c2, rest)
      else some (digitVal c1, c2 :: rest)
    else none
  | [c1] => if c1.isDigit then some (digitVal c1, []) else none
  | [] => none

/-- Read exactly two digits (directive `%y`). -/
def takeNum2exact : List Char → Option (Nat × List Char)
  | c1 :: c2 :: rest =>
    if c1.isDigit && c2.isDigit then some (digitVal c1 * 10 + digitVal c2, rest)
    else none
  | _ => none

/-- Read exactly four digits (directive `%Y`). -/
def takeNum4 : List Char → Option (Nat × List Char)
  | c1 :: c2 :: c3 :: c4 :: rest =>
    if c1.isDigit && c2.isDigit && c3.isDigit && c4.isDigit then
      some (digitVal c1 * 1000 + digitVal c2 * 100 + digitVal c3 * 10 + digitVal c4, rest)
    else none
  | _ => none

/-- Consume a required literal character. -/
def expectChar (ch : Char) : List Char → Option (List Char)
  | c :: rest => if c = ch then some rest else none
  | _ => none

/-- Consume one or more whitespace characters (a space in a `strptime`
format matches any non-empty whitespace run). -/
def skipWs : List Char → Option (List Char)
  | c :: rest =>
    if c.isWhitespace then some (rest.dropWhile Char.isWhitespace) else none
  | [] => none

/-- CPython two-digit-year pivot: `00`–`68` mean 2000–2068, `69`–`99` mean
1969–1999. -/
def expandYY (yy : Nat) : Nat := if yy ≤ 68 then 2000 + yy else 1900 + yy

/-- Shared body of the two date formats: `day/month/year hour:minute` where
the year has already been read, with full-consumption and range checks. -/
def finishParse (d m y : Nat) (cs : List Char) : Option Timestamp := do
  let (h, cs) ← takeNum2 cs
  let cs ← expectChar ':' cs
  let (mi, cs) ← takeNum2 cs
  if cs = [] ∧ 1 ≤ y ∧ 1 ≤ m ∧ m ≤ 12 ∧ 1 ≤ d ∧ d ≤ daysInMonth y m ∧ h ≤ 23 ∧ mi ≤ 59 then
    some (toSeconds y m d h mi)
  else none

/-- `datetime.strptime(s, '%d/%m/%y %H:%M')` as used by `parse_dates`:
`some` timestamp on success, `none` where Python raises `ValueError`. -/
def strptimeShort (s : String) : Option Timestamp := do
  let cs := s.toList
  let (d, cs) ← takeNum2 cs
  let cs ← expectChar '/' cs
  let (m, cs) ← takeNum2 cs
  let cs ← expectChar '/' cs
  let (yy, cs) ← takeNum2exact cs
  let cs ← skipWs cs
  finishParse d m (expandYY yy) cs

/-- `datetime.strptime(s, '%d/%m/%Y %H:%M')` as used for the window
boundaries. -/
def strptimeLong (s : String) : Option Timestamp := do
  let cs := s.toList
  let (d, cs) ← takeNum2 cs
  let cs ← expectChar '/' cs
  let (m, cs) ← takeNum2 cs
  let cs ← expectChar '/' cs
  let (y, cs) ← takeNum4 cs
  let cs ← skipWs cs
  finishParse d m y cs

/-- `parse_dates` (src/workshift.py:55-73): a missing cell maps directly to
`None`; otherwise the cell's string form is tried against the format list
(one pattern), and a non-matching string yields `None`. -/
def parse_dates (c : Cell) : Option Timestamp :=
  match c with
  | .missing => none
  | .str s => strptimeShort s

/-- The per-column parse-failure diagnostic for one cell, mirroring the
`print` on src/workshift.py:72: a non-missing cell that matches no pattern is
reported with its original raw string; a missing cell is not. -/
def parseFailure (c : Cell) : Option String :=
  match c with
  | .missing => none
  | .str s => if (strptimeShort s).isSome then none else some s

/-- Date normalization of one column (src/workshift.py:147-153):
`df[date_col].apply(parse_dates)` together with the ordered diagnostics of
rows whose non-missing cell failed to parse (row index, original raw
string).  Total: it never aborts, every row is processed. -/
def normalizeColumn (cells : List Cell) : List (Option Timestamp) × List (Nat × String) :=
  (cells.map parse_dates,
   cells.enum.filterMap fun p => (parseFailure p.2).map fun s => (p.1, s))

/-! ## Data model -/

/-- One decoded row, projected onto the six required columns (the only ones
the pipeline reads); `others` holds the cells of any extra columns, which are
tolerated and ignored except by the fully-empty-row drop. -/
structure RawRow where
  activityNumber : Cell
  activity : Cell
  milestone : Cell
  startDate : Cell
  endDate : Cell
  responsible : Cell
  others : List Cell := []
deriving DecidableEq, Repr

/-- A decoded table: the column names as read from the file, and the ordered
rows. -/
structure RawTable where
  columns : List String
  rows : List RawRow
deriving DecidableEq, Repr

/-- A row after date normalization has succeeded on both date columns. -/
structure SRow where
  activityNumber : Cell
  activity : Cell
  milestone : Cell
  start : Timestamp
  stop : Timestamp
  responsible : Cell
deriving DecidableEq, Repr

/-- A final clean row: an `SRow` plus the derived `Duration (Hours)` field. -/
structure CleanRow where
  activityNumber : Cell
  activity : Cell
  milestone : Cell
  start : Timestamp
  stop : Timestamp
  responsible : Cell
  durationHours : ℚ
deriving DecidableEq, Repr

/-- The parsed date window supplied by the caller. -/
structure DateWindow where
  fromTs : Timestamp
  toTs : Timestamp
deriving DecidableEq, Repr

/-- Error taxonomy of the pipeline (§7 of the spec; each constructor is one
`raise` site of src/workshift.py). -/
inductive Err where
  | fileNotFound (path : String)
  | unsupportedFormat (ext : String)
  | decodeError
  | schemaError (missing : List String)
  | invalidWindow (which raw : String)
  | emptyResult (stage : String)
  | processingError (cause : Err)
deriving DecidableEq, Repr

/-- Is this error the generic top-level wrapper? -/
def Err.isWrapped : Err → Bool
  | .processingError _ => true
  | _ => false

/-- The input file as the pipeline observes it: whether the path exists, the
lowercased extension `os.path.splitext` yields, and the outcome of each
pandas reader on its bytes (`none` where the reader raises). -/
structure FileInput where
  path : String
  pathExists : Bool
  ext : String
  xlsxRead : Option RawTable
  xlsRead : Option RawTable
  csvRead : String → Option RawTable

/-! ## Decoder -/

/-- The fixed encoding fallback list of `try_read_csv`
(src/workshift.py:14). -/
def encodings : List String := ["utf-8", "latin1", "iso-8859-1", "cp1252"]

/-- The loop of `try_read_csv` (src/workshift.py:16-28): attempt the
encodings in order, return the first successful parse, move on after any
failure. -/
def tryReadCsvAux (read : String → Option RawTable) : List String → Except Err RawTable
  | [] => .error .decodeError
  | e :: rest =>
    match read e with
    | some t => .ok t
    | none => tryReadCsvAux read rest

/-- `try_read_csv` (src/workshift.py:9-30): ordered encoding fallback,
`DecodeError` when every candidate fails. -/
def try_read_csv (read : String → Option RawTable) : Except Err RawTable :=
  tryReadCsvAux read encodings

/-- Format dispatch of `read_and_process_data` (src/workshift.py:125-136);
a reader failure on a spreadsheet format surfaces as `DecodeError`. -/
def decodeStage (f : FileInput) : Except Err RawTable :=
  if f.ext = ".xlsx" then
    match f.xlsxRead with
    | some t => .ok t
    | none => .error .decodeError
  else if f.ext = ".xls" then
    match f.xlsRead with
    | some t => .ok t
    | none => .error .decodeError
  else if f.ext = ".csv" then
    try_read_csv f.csvRead
  else
    .error (.unsupportedFormat f.ext)

/-! ## Schema validation -/

/-- The required columns, in declaration order (src/workshift.py:40-47). -/
def required_columns : List String :=
  ["Activity Number", "Activity", "Milestone/task",
   "Start Date (CET)", "End Date (CET)", "Responsible Person"]

/-- Is every cell of the row missing (`df.dropna(how='all')`)? -/
def isEmptyRow (r : RawRow) : Bool :=
  r.activityNumber = .missing ∧ r.activity = .missing ∧ r.milestone = .missing ∧
    r.startDate = .missing ∧ r.endDate = .missing ∧ r.responsible = .missing ∧
    r.others.all (· = .missing)

/-- Drop fully-empty rows (src/workshift.py:37). -/
def dropEmptyRows (t : RawTable) : RawTable :=
  { t with rows := t.rows.filter fun r => !isEmptyRow r }

/-- The required columns absent from the table (src/workshift.py:49). -/
def missingColumns (cols : List String) : List String :=
  required_columns.filter fun c => ¬ cols.contains c

/-- `clean_and_validate_data` (src/workshift.py:32-53): drop fully-empty
rows, then fail with the complete list of missing required columns if any is
absent. -/
def clean_and_validate_data (t : RawTable) : Except Err RawTable :=
  let t := dropEmptyRows t
  match missingColumns t.columns with
  | [] => .ok t
  | ms => .error (.schemaError ms)

/-! ## Date normalization and null-date drop -/

/-- Parse both date cells of a row; `some` only when both succeed.  The
orchestrator applies `parse_dates` to both date columns and then drops rows
where either is null (src/workshift.py:147-156). -/
def toSRow (r : RawRow) : Option SRow :=
  match parse_dates r.startDate, parse_dates r.endDate with
  | some s, some e =>
    some { activityNumber := r.activityNumber, activity := r.activity,
           milestone := r.milestone, start := s, stop := e,
           responsible := r.responsible }
  | _, _ => none

/-- Normalize dates and drop rows with an invalid date; fail when nothing
remains (src/workshift.py:147-159). -/
def dropNullDatesStage (rows : List RawRow) : Except Err (List SRow) :=
  let srows := rows.filterMap toSRow
  if srows.isEmpty then .error (.emptyResult "no valid data after cleaning")
  else .ok srows

/-! ## Row filters -/

/-- `df['Activity Number'].str.startswith('Prod', na=False)`
(src/workshift.py:162): true exactly for a string cell starting with the
literal `"Prod"`; a missing value counts as `False`. -/
def startsWithProd (c : Cell) : Bool :=
  match c with
  | .str s => "Prod".toList.isPrefixOf s.toList
  | .missing => false

/-- The identifier filter proper (the boolean-mask selection of
src/workshift.py:162). -/
def prodFilter (rows : List SRow) : List SRow :=
  rows.filter fun r => startsWithProd r.activityNumber

/-- Identifier filter stage, failing when no row survives
(src/workshift.py:162-165). -/
def prodStage (rows : List SRow) : Except Err (List SRow) :=
  let kept := prodFilter rows
  if kept.isEmpty then .error (.emptyResult "no Prod tasks")
  else .ok kept

/-- Parse one window boundary with `'%d/%m/%Y %H:%M'`
(src/workshift.py:168-176). -/
def parseBoundary (which raw : String) : Except Err Timestamp :=
  match strptimeLong raw with
  | some t => .ok t
  | none => .error (.invalidWindow which raw)

/-- The date-range mask (src/workshift.py:179-182): keep rows with
`start >= from` and `end <= to`, both bounds inclusive. -/
def rangeFilter (w : DateWindow) (rows : List SRow) : List SRow :=
  rows.filter fun r => decide (w.fromTs ≤ r.start) && decide (r.stop ≤ w.toTs)

/-- Date-range filter stage, failing when no row survives
(src/workshift.py:179-185). -/
def rangeStage (w : DateWindow) (rows : List SRow) : Except Err (List SRow) :=
  let kept := rangeFilter w rows
  if kept.isEmpty then .error (.emptyResult "no tasks in the date range")
  else .ok kept

/-! ## Derived field and orchestrator -/

/-- `Duration (Hours)` (src/workshift.py:188-190): elapsed seconds divided
by 3600. -/
def addDuration (r : SRow) : CleanRow :=
  { activityNumber := r.activityNumber, activity := r.activity,
    milestone := r.milestone, start := r.start, stop := r.stop,
    responsible := r.responsible,
    durationHours := ((r.stop - r.start : Int) : ℚ) / 3600 }

/-- The duration-computation stage: a total map, no row is rejected. -/
def computeDurations (rows : List SRow) : List CleanRow :=
  rows.map addDuration

/-- The body of `read_and_process_data` inside its `try` block
(src/workshift.py:127-192): decode, validate, normalize dates, drop null
dates, prefix-filter, parse the window, range-filter, compute durations. -/
def pipelineBody (f : FileInput) (startFilter endFilter : String) :
    Except Err (List CleanRow) := do
  let t ← decodeStage f
  let t ← clean_and_validate_data t
  let srows ← dropNullDatesStage t.rows
  let prodRows ← prodStage srows
  let wfrom ← parseBoundary "start" startFilter
  let wto ← parseBoundary "end" endFilter
  let ranged ← rangeStage ⟨wfrom, wto⟩ prodRows
  return computeDurations ranged

/-- The `except` clause of `read_and_process_data`
(src/workshift.py:194-195): every failure of the body is re-raised wrapped
in the generic processing error. -/
def wrapFailure : Except Err (List CleanRow) → Except Err (List CleanRow)
  | .ok a => .ok a
  | .error e => .error (.processingError e)

/-- `read_and_process_data` (src/workshift.py:118-195).  The existence check
(line 122) runs before the `try` block, so `FileNotFound` is raised
unwrapped; everything else runs inside it. -/
def read_and_process_data (f : FileInput) (startFilter endFilter : String) :
    Except Err (List CleanRow) :=
  if f.pathExists then wrapFailure (pipelineBody f startFilter endFilter)
  else .error (.fileNotFound f.path)

/-! ## General lemmas about the pipeline -/

theorem except_bind_ok {α β : Type} {x : Except Err α} {f : α → Except Err β} {b : β} :
    x >>= f = .ok b ↔ ∃ a, x = .ok a ∧ f a = .ok b := by
  cases x <;> simp [Bind.bind, Except.bind]

theorem except_bind_error {α β : Type} {x : Except Err α} {f : α → Except Err β} {e : Err} :
    x >>= f = .error e ↔ x = .error e ∨ ∃ a, x = .ok a ∧ f a = .error e := by
  cases x <;> simp [Bind.bind, Except.bind]

theorem tryReadCsvAux_error {read : String → Option RawTable} {l : List String} {e : Err}
    (h : tryReadCsvAux read l = .error e) : e = .decodeError := by
  induction l with
  | nil =>
    rw [tryReadCsvAux] at h
    simp only [Except.error.injEq] at h
    exact h.symm
  | cons hd tl ih =>
    rw [tryReadCsvAux] at h
    cases hread : read hd with
    | some t => rw [hread] at h; simp at h
    | none => rw [hread] at h; exact ih h

theorem decodeStage_error {f : FileInput} {e : Err} (h : decodeStage f = .error e) :
    e = .decodeError ∨ e = .unsupportedFormat f.ext := by
  rw [decodeStage] at h
  split at h
  · cases hx : f.xlsxRead with
    | none => rw [hx] at h; simp only [Except.error.injEq] at h; exact Or.inl h.symm
    | some t => rw [hx] at h; simp at h
  · split at h
    · cases hx : f.xlsRead with
      | none => rw [hx] at h; simp only [Except.error.injEq] at h; exact Or.inl h.symm
      | some t => rw [hx] at h; simp at h
    · split at h
      · rw [try_read_csv] at h
        exact Or.inl (tryReadCsvAux_error h)
      · simp only [Except.error.injEq] at h
        exact Or.inr h.symm

theorem clean_and_validate_data_error {t : RawTable} {e : Err}
    (h : clean_and_validate_data t = .error e) :
    ∃ ms, e = .schemaError ms := by
  rw [clean_and_validate_data] at h
  split at h
  · simp at h
  · simp only [Except.error.injEq] at h
    exact ⟨_, h.symm⟩

theorem dropNullDatesStage_error {rows : List RawRow} {e : Err}
    (h : dropNullDatesStage rows = .error e) : ∃ msg, e = .emptyResult msg := by
  rw [dropNullDatesStage] at h
  split at h
  · simp only [Except.error.injEq] at h
    exact ⟨_, h.symm⟩
  · simp at h

theorem prodStage_error {rows : List SRow} {e : Err}
    (h : prodStage rows = .error e) : ∃ msg, e = .emptyResult msg := by
  rw [prodStage] at h
  split at h
  · simp only [Except.error.injEq] at h
    exact ⟨_, h.symm⟩
  · simp at h

theorem parseBoundary_error {which raw : String} {e : Err}
    (h : parseBoundary which raw = .error e) : e = .invalidWindow which raw := by
  rw [parseBoundary] at h
  split at h
  · simp at h
  · simp only [Except.error.injEq] at h
    exact h.symm

theorem rangeStage_error {w : DateWindow} {rows : List SRow} {e : Err}
    (h : rangeStage w rows = .error e) : ∃ msg, e = .emptyResult msg := by
  rw [rangeStage] at h
  split at h
  · simp only [Except.error.injEq] at h
    exact ⟨_, h.symm⟩
  · simp at h

/-- Every error produced inside the `try` body is a stage-specific error,
never itself the generic wrapper. -/
theorem pipelineBody_error_not_wrapped {f : FileInput} {sF eF : String} {err : Err}
    (h : pipelineBody f sF eF = .error err) : err.isWrapped = false := by
  rw [pipelineBody] at h
  rcases except_bind_error.mp h with h | ⟨t, -, h⟩
  · rcases decodeStage_error h with rfl | rfl <;> rfl
  rcases except_bind_error.mp h with h | ⟨t', -, h⟩
  · obtain ⟨ms, rfl⟩ := clean_and_validate_data_error h; rfl
  rcases except_bind_error.mp h with h | ⟨srows, -, h⟩
  · obtain ⟨msg, rfl⟩ := dropNullDatesStage_error h; rfl
  rcases except_bind_error.mp h with h | ⟨prodRows, -, h⟩
  · obtain ⟨msg, rfl⟩ := prodStage_error h; rfl
  rcases except_bind_error.mp h with h | ⟨wf, -, h⟩
  · rw [parseBoundary_error h]; rfl
  rcases except_bind_error.mp h with h | ⟨wt, -, h⟩
  · rw [parseBoundary_error h]; rfl
  rcases except_bind_error.mp h with h | ⟨ranged, -, h⟩
  · obtain ⟨msg, rfl⟩ := rangeStage_error h; rfl
  · simp [Pure.pure, Except.pure] at h

/-! ## Claims about the orchestrator's error surface -/

/-- C10: for every path that does not exist, `read_and_process_data` raises
`FileNotFound` before any format dispatch or decoding — in particular a
nonexistent path with an unsupported extension yields `FileNotFound`, never
`UnsupportedFormat`; the existence check is the first observable action. -/
theorem c10_missing_path_wins (f : FileInput) (sF eF : String)
    (h : f.pathExists = false) :
    read_and_process_data f sF eF = .error (.fileNotFound f.path) := by
  rw [read_and_process_data, h]
  simp

/-- C10 witness: a nonexistent path whose extension `.foo` maps to no reader
still fails with `FileNotFound`, not `UnsupportedFormat`. -/
theorem c10_missing_path_wins_witness :
    read_and_process_data
      { path := "gone.foo", pathExists := false, ext := ".foo",
        xlsxRead := none, xlsRead := none, csvRead := fun _ => none }
      "08/11/2024 17:00" "10/11/2024 23:59" = .error (.fileNotFound "gone.foo") :=
  c10_missing_path_wins _ _ _ rfl

/-- C2 counterexample: the claim says every stage-specific error — including
`FileNotFound` — is surfaced wrapped in a generic `ProcessingError`.  But the
existence check runs before the `try` block (src/workshift.py:122 vs 127), so
on a nonexistent path the pipeline surfaces a bare, unwrapped `FileNotFound`
(which `main` relies on, catching `FileNotFoundError` separately). -/
theorem c2_unwrapped_file_not_found_cex :
    read_and_process_data
      { path := "missing.csv", pathExists := false, ext := ".csv",
        xlsxRead := none, xlsRead := none, csvRead := fun _ => none }
      "08/11/2024 17:00" "10/11/2024 23:59" = .error (.fileNotFound "missing.csv") ∧
    (Err.fileNotFound "missing.csv").isWrapped = false :=
  ⟨rfl, rfl⟩

/-- C2 (amended): every failure raised inside the processing body
(`UnsupportedFormat`, `DecodeError`, `SchemaError`, `InvalidWindowError`,
`EmptyResultError`) aborts the run immediately and is surfaced at the top
level wrapped — exactly once — in the generic `ProcessingError` carrying the
underlying cause; `FileNotFound`, raised by the existence pre-check before
the wrapped region, escapes unwrapped; no failure is suppressed. -/
theorem c2_wrapping_amended (f : FileInput) (sF eF : String) :
    (f.pathExists = false →
      read_and_process_data f sF eF = .error (.fileNotFound f.path)) ∧
    (f.pathExists = true → ∀ err, pipelineBody f sF eF = .error err →
      read_and_process_data f sF eF = .error (.processingError err) ∧
        err.isWrapped = false) ∧
    (f.pathExists = true → ∀ out, pipelineBody f sF eF = .ok out →
      read_and_process_data f sF eF = .ok out) := by
  refine ⟨fun h => by rw [read_and_process_data, h]; simp, fun h err herr => ?_,
    fun h out hout => ?_⟩
  · rw [read_and_process_data, h]
    simp only [if_true]
    rw [herr]
    exact ⟨rfl, pipelineBody_error_not_wrapped herr⟩
  · rw [read_and_process_data, h]
    simp only [if_true]
    rw [hout]
    rfl

/-- C2 witness: on a table missing the `Activity` column, the run fails with
`SchemaError` wrapped in `ProcessingError`, and the run on a valid body
succeeds unwrapped. -/
theorem c2_wrapping_amended_witness :
    read_and_process_data
      { path := "runbook.csv", pathExists := true, ext := ".csv",
        xlsxRead := none, xlsRead := none,
        csvRead := fun _ =>
          some { columns := ["Activity Number"],
                 rows := [{ activityNumber := .str "Prod1", activity := .missing,
                            milestone := .missing, startDate := .missing,
                            endDate := .missing, responsible := .missing }] } }
      "08/11/2024 17:00" "10/11/2024 23:59" =
      .error (.processingError (.schemaError
        ["Activity", "Milestone/task", "Start Date (CET)",
         "End Date (CET)", "Responsible Person"])) ∧
    (Err.schemaError ["Activity", "Milestone/task", "Start Date (CET)",
        "End Date (CET)", "Responsible Person"]).isWrapped = false := by
  have h := (c2_wrapping_amended
    { path := "runbook.csv", pathExists := true, ext := ".csv",
      xlsxRead := none, xlsRead := none,
      csvRead := fun _ =>
        some { columns := ["Activity Number"],
               rows := [{ activityNumber := .str "Prod1", activity := .missing,
                          milestone := .missing, startDate := .missing,
                          endDate := .missing, responsible := .missing }] } }
    "08/11/2024 17:00" "10/11/2024 23:59").2.1 rfl _ rfl
  exact ⟨h.1, h.2⟩

/-! ## Schema validation (C6) -/

theorem mem_missingColumns {cols : List String} {c : String} :
    c ∈ missingColumns cols ↔ c ∈ required_columns ∧ c ∉ cols := by
  simp [missingColumns, List.mem_filter, List.elem_iff]

theorem clean_and_validate_data_eq (t : RawTable) :
    clean_and_validate_data t =
      if missingColumns t.columns = [] then .ok (dropEmptyRows t)
      else .error (.schemaError (missingColumns t.columns)) := by
  have hcols : (dropEmptyRows t).columns = t.columns := rfl
  simp only [clean_and_validate_data, hcols]
  cases hm : missingColumns t.columns with
  | nil => simp [hm]
  | cons c ms => simp [hm]

/-- C6: schema validation fails with `SchemaError` exactly when at least one
required column is absent, the error lists every absent required column (not
only the first), and only membership of the column list matters: reordering
it or appending extra non-required columns leaves the outcome unchanged. -/
theorem c6_schema_lists_all_missing (t : RawTable) :
    ((∃ e, clean_and_validate_data t = .error e) ↔
      ∃ c, c ∈ required_columns ∧ c ∉ t.columns) ∧
    (∀ ms, clean_and_validate_data t = .error (.schemaError ms) →
      ∀ c, c ∈ ms ↔ (c ∈ required_columns ∧ c ∉ t.columns)) ∧
    (∀ cols' : List String, (∀ c, c ∈ t.columns ↔ c ∈ cols') →
      missingColumns t.columns = missingColumns cols') ∧
    (∀ extras : List String, (∀ c ∈ extras, c ∉ required_columns) →
      missingColumns (t.columns ++ extras) = missingColumns t.columns) := by
  rw [clean_and_validate_data_eq t]
  refine ⟨?_, ?_, ?_, ?_⟩
  · constructor
    · rintro ⟨e, he⟩
      split at he
      · simp at he
      · rename_i hne
        obtain ⟨c, hc⟩ := List.exists_mem_of_ne_nil _ hne
        exact ⟨c, mem_missingColumns.mp hc⟩
    · rintro ⟨c, hc⟩
      have hne : missingColumns t.columns ≠ [] := by
        intro h0
        have := mem_missingColumns.mpr hc
        rw [h0] at this
        exact absurd this (List.not_mem_nil c)
      rw [if_neg hne]
      exact ⟨_, rfl⟩
  · intro ms hms c
    split at hms
    · simp at hms
    · simp only [Except.error.injEq, Err.schemaError.injEq] at hms
      rw [← hms]
      exact mem_missingColumns
  · intro cols' hmem
    simp only [missingColumns]
    apply List.filter_congr
    intro c _
    simp [List.elem_iff, hmem c]
  · intro extras hex
    simp only [missingColumns]
    apply List.filter_congr
    intro c hc
    have hni : c ∉ extras := fun hce => hex c hce hc
    simp [List.elem_iff, List.mem_append, hni]

/-- C6 witness: a table missing both `Activity` and `Responsible Person`
fails with a `SchemaError` reporting both, and a table with the required
columns in a different order plus an extra column passes. -/
theorem c6_schema_lists_all_missing_witness :
    (∃ e, clean_and_validate_data
      { columns := ["Activity Number", "Milestone/task", "Start Date (CET)",
                    "End Date (CET)"], rows := [] } = .error e) ∧
    (∀ ms, clean_and_validate_data
      { columns := ["Activity Number", "Milestone/task", "Start Date (CET)",
                    "End Date (CET)"], rows := [] } = .error (.schemaError ms) →
      "Activity" ∈ ms ∧ "Responsible Person" ∈ ms) ∧
    missingColumns ["Responsible Person", "End Date (CET)", "Start Date (CET)",
      "Milestone/task", "Activity", "Activity Number", "Extra Column"] = [] := by
  have h := c6_schema_lists_all_missing
    { columns := ["Activity Number", "Milestone/task", "Start Date (CET)",
                  "End Date (CET)"], rows := [] }
  refine ⟨h.1.mpr ⟨"Activity", by decide, by decide⟩, fun ms hms => ?_, by decide⟩
  exact ⟨(h.2.1 ms hms "Activity").mpr (by decide),
    (h.2.1 ms hms "Responsible Person").mpr (by decide)⟩

/-! ## Decoder encoding fallback (C7) -/

theorem tryReadCsvAux_all_none {read : String → Option RawTable} {l : List String}
    (h : ∀ x ∈ l, read x = none) : tryReadCsvAux read l = .error .decodeError := by
  induction l with
  | nil => rfl
  | cons hd tl ih =>
    rw [tryReadCsvAux, h hd (List.mem_cons_self hd tl)]
    exact ih fun x hx => h x (List.mem_cons_of_mem hd hx)

theorem tryReadCsvAux_first_success {read : String → Option RawTable}
    {pre post : List String} {enc : String} {t : RawTable}
    (hpre : ∀ x ∈ pre, read x = none) (henc : read enc = some t) :
    tryReadCsvAux read (pre ++ enc :: post) = .ok t := by
  induction pre with
  | nil => rw [List.nil_append, tryReadCsvAux, henc]
  | cons hd tl ih =>
    rw [List.cons_append, tryReadCsvAux, hpre hd (List.mem_cons_self hd tl)]
    exact ih fun x hx => hpre x (List.mem_cons_of_mem hd hx)

theorem tryReadCsvAux_congr {read read' : String → Option RawTable} {l : List String}
    (h : ∀ x ∈ l, read x = read' x) : tryReadCsvAux read l = tryReadCsvAux read' l := by
  induction l with
  | nil => rfl
  | cons hd tl ih =>
    rw [tryReadCsvAux, tryReadCsvAux, h hd (List.mem_cons_self hd tl)]
    cases read' hd with
    | some t => rfl
    | none => exact ih fun x hx => h x (List.mem_cons_of_mem hd hx)

/-- C7: the CSV decoder attempts the candidate encodings in the exact fixed
order UTF-8, Latin-1, ISO-8859-1, Windows-1252; it returns the table of the
first encoding whose full parse succeeds, moving on after any failure; it
fails with `DecodeError` only when all candidates fail; and its outcome is
determined by the per-encoding parse outcomes alone, hence deterministic
across runs on the same bytes. -/
theorem c7_decoder_ordered_fallback (read read' : String → Option RawTable) :
    encodings = ["utf-8", "latin1", "iso-8859-1", "cp1252"] ∧
    (∀ pre enc post t, encodings = pre ++ enc :: post →
      (∀ x ∈ pre, read x = none) → read enc = some t →
      try_read_csv read = .ok t) ∧
    ((∀ enc ∈ encodings, read enc = none) →
      try_read_csv read = .error .decodeError) ∧
    (∀ e, try_read_csv read = .error e → e = .decodeError) ∧
    ((∀ enc ∈ encodings, read enc = read' enc) →
      try_read_csv read = try_read_csv read') := by
  refine ⟨rfl, fun pre enc post t hsplit hpre henc => ?_, fun h => ?_, fun e he => ?_,
    fun h => ?_⟩
  · rw [try_read_csv, hsplit]
    exact tryReadCsvAux_first_success hpre henc
  · rw [try_read_csv]
    exact tryReadCsvAux_all_none h
  · rw [try_read_csv] at he
    exact tryReadCsvAux_error he
  · rw [try_read_csv, try_read_csv]
    exact tryReadCsvAux_congr h

/-- C7 witness: when UTF-8 fails and Latin-1 succeeds the Latin-1 table is
returned, and when every encoding fails the decoder reports `DecodeError`. -/
theorem c7_decoder_ordered_fallback_witness :
    try_read_csv (fun enc =>
      if enc = "latin1" then some { columns := ["Activity Number"], rows := [] }
      else none) = .ok { columns := ["Activity Number"], rows := [] } ∧
    try_read_csv (fun _ => none) = .error .decodeError := by
  have h := c7_decoder_ordered_fallback
    (fun enc =>
      if enc = "latin1" then some { columns := ["Activity Number"], rows := [] }
      else none) (fun _ => none)
  have h0 := c7_decoder_ordered_fallback (fun _ => none) (fun _ => none)
  refine ⟨h.2.1 ["utf-8"] "latin1" ["iso-8859-1", "cp1252"] _ (by rw [h.1]; rfl) ?_ rfl,
    h0.2.2.1 fun enc _ => rfl⟩
  intro x hx
  rw [List.mem_singleton] at hx
  subst hx
  rfl

/-! ## Date normalizer (C3) -/

theorem parseFailure_eq_some {c : Cell} {s : String} :
    parseFailure c = some s ↔ c = .str s ∧ strptimeShort s = none := by
  cases c with
  | missing => simp [parseFailure]
  | str s' =>
    simp only [parseFailure, Cell.str.injEq]
    cases hp : strptimeShort s' with
    | some t =>
      simp only [hp, Option.isSome_some, if_true]
      constructor
      · intro h
        exact absurd h (by simp)
      · rintro ⟨rfl, hn⟩
        rw [hp] at hn
        exact Option.noConfusion hn
    | none =>
      simp only [hp, Option.isSome_none, Bool.false_eq_true, if_false,
        Option.some.injEq]
      constructor
      · rintro rfl
        exact ⟨rfl, hp⟩
      · rintro ⟨rfl, -⟩
        rfl

/-- C3: in a designated date column, a missing cell normalizes to null and
is not recorded as a parse failure; a non-missing cell matching no pattern
normalizes to null and is recorded in the failures diagnostics with its
original raw string; and processing continues over every row rather than
aborting (the normalizer is total and length-preserving). -/
theorem c3_missing_vs_unparsable (cells : List Cell) :
    ((normalizeColumn cells).1.length = cells.length) ∧
    (∀ c ∈ cells, c = .missing → parse_dates c = none ∧ parseFailure c = none) ∧
    (∀ s, strptimeShort s = none → parse_dates (.str s) = none) ∧
    (∀ i s, (i, s) ∈ (normalizeColumn cells).2 ↔
      (cells[i]? = some (.str s) ∧ strptimeShort s = none)) := by
  refine ⟨by simp [normalizeColumn], fun c _ hc => by simp [hc, parse_dates, parseFailure],
    fun s hs => by simp [parse_dates, hs], fun i s => ?_⟩
  simp only [normalizeColumn, List.mem_filterMap, Option.map_eq_some']
  constructor
  · rintro ⟨⟨j, c⟩, hmem, s', hfail, heq⟩
    obtain ⟨rfl, rfl⟩ : j = i ∧ s' = s := by
      simpa [Prod.ext_iff] using heq
    obtain ⟨rfl, hnone⟩ := parseFailure_eq_some.mp hfail
    exact ⟨(List.mk_mem_enum_iff_getElem?).mp hmem, hnone⟩
  · rintro ⟨hget, hnone⟩
    exact ⟨(i, .str s), (List.mk_mem_enum_iff_getElem?).mpr hget, s,
      parseFailure_eq_some.mpr ⟨rfl, hnone⟩, rfl⟩

/-- C3 witness: on `[missing, "not a date", "08/11/24 17:00"]` the
normalizer keeps all three rows, nulls the first two, and records exactly
the unparsable second cell with its raw string. -/
theorem c3_missing_vs_unparsable_witness :
    (normalizeColumn [.missing, .str "not a date", .str "08/11/24 17:00"]).1.length = 3 ∧
    parse_dates .missing = none ∧ parseFailure .missing = none ∧
    parse_dates (.str "not a date") = none ∧
    (1, "not a date") ∈
      (normalizeColumn [.missing, .str "not a date", .str "08/11/24 17:00"]).2 ∧
    ¬ (0, "") ∈ (normalizeColumn [.missing, .str "not a date", .str "08/11/24 17:00"]).2 := by
  have h := c3_missing_vs_unparsable [.missing, .str "not a date", .str "08/11/24 17:00"]
  refine ⟨h.1, (h.2.1 .missing (by simp) rfl).1, (h.2.1 .missing (by simp) rfl).2,
    h.2.2.1 "not a date" rfl, (h.2.2.2 1 "not a date").mpr ⟨rfl, rfl⟩, fun hc => ?_⟩
  have := (h.2.2.2 0 "").mp hc
  simp at this

/-! ## Identifier prefix filter (C5) -/

theorem startsWithProd_iff {c : Cell} :
    startsWithProd c = true ↔
      ∃ s tail, c = .str s ∧ s.toList = 'P' :: 'r' :: 'o' :: 'd' :: tail := by
  cases c with
  | missing => simp [startsWithProd]
  | str s =>
    simp only [startsWithProd, List.isPrefixOf_iff_prefix, Cell.str.injEq]
    constructor
    · rintro ⟨tail, htail⟩
      exact ⟨s, tail, rfl, by rw [← htail]; rfl⟩
    · rintro ⟨s', tail, heq, hs⟩
      cases heq
      exact ⟨tail, by rw [hs]; rfl⟩

/-- C5: the identifier filter keeps a row exactly when its identifier cell
is a string whose characters start with the literal `P`, `r`, `o`, `d`
(case-sensitive), a missing identifier is always excluded, and the stage
fails with `EmptyResultError` exactly when zero rows remain. -/
theorem c5_identifier_filter (rows : List SRow) :
    (∀ r, r ∈ prodFilter rows ↔ r ∈ rows ∧
      ∃ s tail, r.activityNumber = .str s ∧ s.toList = 'P' :: 'r' :: 'o' :: 'd' :: tail) ∧
    (∀ r ∈ prodFilter rows, r.activityNumber ≠ .missing) ∧
    (prodStage rows = .error (.emptyResult "no Prod tasks") ↔ prodFilter rows = []) ∧
    (prodFilter rows ≠ [] → prodStage rows = .ok (prodFilter rows)) := by
  have hmem : ∀ r, r ∈ prodFilter rows ↔ r ∈ rows ∧
      ∃ s tail, r.activityNumber = .str s ∧
        s.toList = 'P' :: 'r' :: 'o' :: 'd' :: tail := by
    intro r
    rw [prodFilter, List.mem_filter, startsWithProd_iff]
  refine ⟨hmem, fun r hr hmiss => ?_, ?_, fun hne => ?_⟩
  · obtain ⟨-, s, tail, hs, -⟩ := (hmem r).mp hr
    rw [hmiss] at hs
    exact Cell.noConfusion hs
  · rw [prodStage]
    constructor
    · intro h
      split at h
      · rename_i hemp
        exact List.isEmpty_iff.mp hemp
      · exact Except.noConfusion h
    · intro h
      rw [if_pos (List.isEmpty_iff.mpr h)]
  · rw [prodStage, if_neg (by simpa [List.isEmpty_iff] using hne)]

/-- C5 witness: `"ProdX"` is kept, `"prodX"` (wrong case) is dropped, a
missing identifier is dropped, and the stage succeeds on the survivor. -/
theorem c5_identifier_filter_witness :
    { activityNumber := Cell.str "ProdX", activity := .str "A", milestone := .str "M",
      start := 0, stop := 0, responsible := .str "R" } ∈
      prodFilter
        [{ activityNumber := Cell.str "ProdX", activity := .str "A", milestone := .str "M",
           start := 0, stop := 0, responsible := .str "R" },
         { activityNumber := Cell.str "prodX", activity := .str "A", milestone := .str "M",
           start := 0, stop := 0, responsible := .str "R" },
         { activityNumber := Cell.missing, activity := .str "A", milestone := .str "M",
           start := 0, stop := 0, responsible := .str "R" }] ∧
    ¬ { activityNumber := Cell.str "prodX", activity := .str "A", milestone := .str "M",
        start := 0, stop := 0, responsible := .str "R" } ∈
      prodFilter
        [{ activityNumber := Cell.str "ProdX", activity := .str "A", milestone := .str "M",
           start := 0, stop := 0, responsible := .str "R" },
         { activityNumber := Cell.str "prodX", activity := .str "A", milestone := .str "M",
           start := 0, stop := 0, responsible := .str "R" },
         { activityNumber := Cell.missing, activity := .str "A", milestone := .str "M",
           start := 0, stop := 0, responsible := .str "R" }] ∧
    ¬ { activityNumber := Cell.missing, activity := .str "A", milestone := .str "M",
        start := 0, stop := 0, responsible := .str "R" } ∈
      prodFilter
        [{ activityNumber := Cell.str "ProdX", activity := .str "A", milestone := .str "M",
           start := 0, stop := 0, responsible := .str "R" },
         { activityNumber := Cell.str "prodX", activity := .str "A", milestone := .str "M",
           start := 0, stop := 0, responsible := .str "R" },
         { activityNumber := Cell.missing, activity := .str "A", milestone := .str "M",
           start := 0, stop := 0, responsible := .str "R" }] := by
  have h := c5_identifier_filter
    [{ activityNumber := Cell.str "ProdX", activity := .str "A", milestone := .str "M",
       start := 0, stop := 0, responsible := .str "R" },
     { activityNumber := Cell.str "prodX", activity := .str "A", milestone := .str "M",
       start := 0, stop := 0, responsible := .str "R" },
     { activityNumber := Cell.missing, activity := .str "A", milestone := .str "M",
       start := 0, stop := 0, responsible := .str "R" }]
  refine ⟨(h.1 _).mpr ⟨by simp, "ProdX", ['X'], rfl, rfl⟩, fun hc => ?_, fun hc => ?_⟩
  · obtain ⟨-, s, tail, hs, hchars⟩ := (h.1 _).mp hc
    cases hs
    rw [show "prodX".toList = 'p' :: 'r' :: 'o' :: 'd' :: 'X' :: [] from rfl] at hchars
    simp at hchars
  · exact (h.2.1 _ hc) rfl

/-! ## Date-range filter (C4) -/

/-- C4: the date-range filter keeps a surviving row exactly when
`start >= from` and `end <= to`, both bounds inclusive, and the stage fails
with `EmptyResultError` exactly when zero rows remain. -/
theorem c4_range_filter (w : DateWindow) (rows : List SRow) :
    (∀ r, r ∈ rangeFilter w rows ↔
      r ∈ rows ∧ w.fromTs ≤ r.start ∧ r.stop ≤ w.toTs) ∧
    (rangeStage w rows = .error (.emptyResult "no tasks in the date range") ↔
      rangeFilter w rows = []) ∧
    (rangeFilter w rows ≠ [] → rangeStage w rows = .ok (rangeFilter w rows)) := by
  refine ⟨fun r => ?_, ?_, fun hne => ?_⟩
  · rw [rangeFilter, List.mem_filter]
    simp
  · rw [rangeStage]
    constructor
    · intro h
      split at h
      · rename_i hemp
        exact List.isEmpty_iff.mp hemp
      · exact Except.noConfusion h
    · intro h
      rw [if_pos (List.isEmpty_iff.mpr h)]
  · rw [rangeStage, if_neg (by simpa [List.isEmpty_iff] using hne)]

/-- C4 witness: with the window 08/11/2024 17:00 .. 10/11/2024 23:59, a row
lying exactly on both bounds is kept, and a row whose end exceeds the upper
bound by one second is dropped. -/
theorem c4_range_filter_witness :
    strptimeLong "08/11/2024 17:00" = some 1731085200 ∧
    strptimeLong "10/11/2024 23:59" = some 1731283140 ∧
    { activityNumber := Cell.str "Prod1", activity := .str "A", milestone := .str "M",
      start := 1731085200, stop := 1731283140, responsible := .str "R" } ∈
      rangeFilter ⟨1731085200, 1731283140⟩
        [{ activityNumber := Cell.str "Prod1", activity := .str "A", milestone := .str "M",
           start := 1731085200, stop := 1731283140, responsible := .str "R" },
         { activityNumber := Cell.str "Prod2", activity := .str "A", milestone := .str "M",
           start := 1731085200, stop := 1731283141, responsible := .str "R" }] ∧
    ¬ { activityNumber := Cell.str "Prod2", activity := .str "A", milestone := .str "M",
        start := 1731085200, stop := 1731283141, responsible := .str "R" } ∈
      rangeFilter ⟨1731085200, 1731283140⟩
        [{ activityNumber := Cell.str "Prod1", activity := .str "A", milestone := .str "M",
           start := 1731085200, stop := 1731283140, responsible := .str "R" },
         { activityNumber := Cell.str "Prod2", activity := .str "A", milestone := .str "M",
           start := 1731085200, stop := 1731283141, responsible := .str "R" }] := by
  have h := c4_range_filter ⟨1731085200, 1731283140⟩
    [{ activityNumber := Cell.str "Prod1", activity := .str "A", milestone := .str "M",
       start := 1731085200, stop := 1731283140, responsible := .str "R" },
     { activityNumber := Cell.str "Prod2", activity := .str "A", milestone := .str "M",
       start := 1731085200, stop := 1731283141, responsible := .str "R" }]
  refine ⟨rfl, rfl, (h.1 _).mpr ⟨by simp, by decide, by decide⟩, fun hc => ?_⟩
  obtain ⟨-, -, hle⟩ := (h.1 _).mp hc
  exact absurd hle (by decide)

/-! ## Derived duration field (C8) -/

/-- C8: for every row surviving the filters, `durationHours` is the elapsed
seconds from start to end divided by 3600 (equivalently, multiplying it back
by 3600 recovers the elapsed seconds); it is negative exactly when
`end < start`, and no row is rejected by this stage. -/
theorem c8_duration_hours (rows : List SRow) :
    ((computeDurations rows).length = rows.length) ∧
    (∀ c ∈ computeDurations rows,
      c.durationHours = ((c.stop - c.start : Int) : ℚ) / 3600 ∧
      c.durationHours * 3600 = ((c.stop - c.start : Int) : ℚ) ∧
      (c.durationHours < 0 ↔ c.stop < c.start)) := by
  refine ⟨List.length_map rows addDuration, fun c hc => ?_⟩
  obtain ⟨r, -, rfl⟩ := List.mem_map.mp hc
  refine ⟨rfl, ?_, ?_⟩
  · show ((r.stop - r.start : Int) : ℚ) / 3600 * 3600 = ((r.stop - r.start : Int) : ℚ)
    field_simp
  · show ((r.stop - r.start : Int) : ℚ) / 3600 < 0 ↔ r.stop < r.start
    rw [div_neg_iff]
    constructor
    · rintro (⟨-, h3600⟩ | ⟨hneg, -⟩)
      · norm_num at h3600
      · have hint : (r.stop - r.start : Int) < 0 := by exact_mod_cast hneg
        exact sub_neg.mp hint
    · intro hlt
      refine Or.inr ⟨?_, by norm_num⟩
      have hint : (r.stop - r.start : Int) < 0 := sub_neg.mpr hlt
      exact_mod_cast hint

/-- The 10:00–12:30 example row of §8 of the spec, dates already
normalized. -/
def exampleRow : SRow :=
  { activityNumber := Cell.str "Prod1", activity := .str "A",
    milestone := .str "M", start := 1731060000, stop := 1731069000,
    responsible := .str "R" }

/-- The example row with start and end swapped (negative duration). -/
def exampleRowSwapped : SRow :=
  { activityNumber := Cell.str "Prod1", activity := .str "A",
    milestone := .str "M", start := 1731069000, stop := 1731060000,
    responsible := .str "R" }

/-- C8 witness: start 08/11/24 10:00 and end 08/11/24 12:30 give exactly
2.5 hours, and swapping them gives a negative duration that is kept. -/
theorem c8_duration_hours_witness :
    strptimeShort "08/11/24 10:00" = some 1731060000 ∧
    strptimeShort "08/11/24 12:30" = some 1731069000 ∧
    (addDuration exampleRow).durationHours = 5 / 2 ∧
    (addDuration exampleRowSwapped).durationHours < 0 ∧
    (computeDurations [exampleRowSwapped]).length = 1 := by
  have h := c8_duration_hours [exampleRow]
  have h' := c8_duration_hours [exampleRowSwapped]
  have hmem := h.2 (addDuration exampleRow)
    (List.mem_map_of_mem addDuration (List.mem_singleton_self exampleRow))
  have hmem' := h'.2 (addDuration exampleRowSwapped)
    (List.mem_map_of_mem addDuration (List.mem_singleton_self exampleRowSwapped))
  refine ⟨rfl, rfl, ?_, ?_, h'.1⟩
  · rw [hmem.1]
    show ((1731069000 - 1731060000 : Int) : ℚ) / 3600 = 5 / 2
    norm_num
  · exact hmem'.2.2.mpr (by decide)

/-! ## Inverted date windows (C1) -/

/-- A decoded row whose dates are valid but reversed: it starts on 10/11 and
ends on 08/11. -/
def invertedRawRow : RawRow :=
  { activityNumber := .str "Prod1", activity := .str "A", milestone := .str "M",
    startDate := .str "10/11/24 00:00", endDate := .str "08/11/24 00:00",
    responsible := .str "R" }

/-- A decoded table holding only `invertedRawRow`. -/
def invertedTable : RawTable :=
  { columns := required_columns, rows := [invertedRawRow] }

/-- A CSV file decoding (under UTF-8) to `invertedTable`. -/
def invertedFile : FileInput :=
  { path := "runbook.csv", pathExists := true, ext := ".csv",
    xlsxRead := none, xlsRead := none,
    csvRead := fun enc => if enc = "utf-8" then some invertedTable else none }

/-- The clean row the pipeline produces from `invertedRawRow` under the
inverted window 10/11/2024 00:00 .. 08/11/2024 00:00. -/
def invertedCleanRow : CleanRow :=
  { activityNumber := .str "Prod1", activity := .str "A", milestone := .str "M",
    start := 1731196800, stop := 1731024000, responsible := .str "R",
    durationHours := ((1731024000 - 1731196800 : Int) : ℚ) / 3600 }

/-- C1 counterexample: the claim says an inverted window (`from > to`) keeps
zero rows on every dataset and always ends in `EmptyResultError`.  But a row
whose end precedes its start (legal: negative durations are not rejected)
can satisfy `start >= from AND end <= to` even when `from > to`: with window
from = 10/11/2024 00:00 > to = 08/11/2024 00:00 and a row running backwards
from 10/11 to 08/11, the pipeline returns a non-empty clean dataset. -/
theorem c1_inverted_window_cex :
    strptimeLong "10/11/2024 00:00" = some 1731196800 ∧
    strptimeLong "08/11/2024 00:00" = some 1731024000 ∧
    (1731024000 : Int) < 1731196800 ∧
    read_and_process_data invertedFile "10/11/2024 00:00" "08/11/2024 00:00" =
      .ok [invertedCleanRow] :=
  ⟨rfl, rfl, by decide, rfl⟩

/-- C1 (amended): an inverted window (`from > to`) can only keep rows whose
end precedes their start; whenever every row reaching the date-range filter
satisfies `start <= end`, an inverted window keeps zero rows and the
pipeline fails with `EmptyResultError` (wrapped in the generic processing
error at the top level) — it never crashes and never returns a non-empty
dataset in that case. -/
theorem c1_inverted_window_amended (w : DateWindow) (rows : List SRow) :
    (w.toTs < w.fromTs → ∀ r ∈ rangeFilter w rows, r.stop < r.start) ∧
    (w.toTs < w.fromTs → (∀ r ∈ rows, r.start ≤ r.stop) →
      rangeStage w rows = .error (.emptyResult "no tasks in the date range")) ∧
    (∀ (f : FileInput) (sF eF : String) (t t' : RawTable)
       (srows prodRows : List SRow) (wf wt : Timestamp),
      f.pathExists = true →
      decodeStage f = .ok t →
      clean_and_validate_data t = .ok t' →
      dropNullDatesStage t'.rows = .ok srows →
      prodStage srows = .ok prodRows →
      parseBoundary "start" sF = .ok wf →
      parseBoundary "end" eF = .ok wt →
      wt < wf →
      (∀ r ∈ prodRows, r.start ≤ r.stop) →
      read_and_process_data f sF eF =
        .error (.processingError (.emptyResult "no tasks in the date range"))) := by
  have hkeep : ∀ (w' : DateWindow) (rows' : List SRow), w'.toTs < w'.fromTs →
      ∀ r ∈ rangeFilter w' rows', r.stop < r.start := by
    intro w' rows' hinv r hr
    rw [rangeFilter, List.mem_filter] at hr
    obtain ⟨-, hcond⟩ := hr
    simp only [Bool.and_eq_true, decide_eq_true_eq] at hcond
    exact lt_of_le_of_lt hcond.2 (lt_of_lt_of_le hinv hcond.1)
  have hempty : ∀ (w' : DateWindow) (rows' : List SRow), w'.toTs < w'.fromTs →
      (∀ r ∈ rows', r.start ≤ r.stop) →
      rangeStage w' rows' = .error (.emptyResult "no tasks in the date range") := by
    intro w' rows' hinv hpos
    have hnil : rangeFilter w' rows' = [] := by
      rcases hfil : rangeFilter w' rows' with _ | ⟨r, rest⟩
      · rfl
      · have hmem : r ∈ rangeFilter w' rows' := by rw [hfil]; exact List.mem_cons_self r rest
        have hlt := hkeep w' rows' hinv r hmem
        have hle : r.start ≤ r.stop := by
          apply hpos
          rw [rangeFilter, List.mem_filter] at hmem
          exact hmem.1
        exact absurd hlt (not_lt.mpr hle)
    rw [rangeStage, if_pos (List.isEmpty_iff.mpr hnil)]
  refine ⟨hkeep w rows, hempty w rows, ?_⟩
  intro f sF eF t t' srows prodRows wf wt hex hdec hval hdrop hprod hwf hwt hinv hpos
  rw [read_and_process_data, if_pos hex]
  have hbody : pipelineBody f sF eF =
      .error (.emptyResult "no tasks in the date range") := by
    rw [pipelineBody, hdec]
    show clean_and_validate_data t >>= _ = _
    rw [hval]
    show dropNullDatesStage t'.rows >>= _ = _
    rw [hdrop]
    show prodStage srows >>= _ = _
    rw [hprod]
    show parseBoundary "start" sF >>= _ = _
    rw [hwf]
    show parseBoundary "end" eF >>= _ = _
    rw [hwt]
    show rangeStage ⟨wf, wt⟩ prodRows >>= _ = _
    rw [hempty ⟨wf, wt⟩ prodRows hinv hpos]
    rfl
  rw [hbody]
  rfl

/-- A decoded row with well-ordered dates (08/11 to 10/11). -/
def forwardRawRow : RawRow :=
  { activityNumber := .str "Prod1", activity := .str "A", milestone := .str "M",
    startDate := .str "08/11/24 00:00", endDate := .str "10/11/24 00:00",
    responsible := .str "R" }

/-- A decoded table holding only `forwardRawRow`. -/
def forwardTable : RawTable :=
  { columns := required_columns, rows := [forwardRawRow] }

/-- A CSV file decoding (under UTF-8) to `forwardTable`. -/
def forwardFile : FileInput :=
  { path := "runbook.csv", pathExists := true, ext := ".csv",
    xlsxRead := none, xlsRead := none,
    csvRead := fun enc => if enc = "utf-8" then some forwardTable else none }

/-- The normalized image of `forwardRawRow`. -/
def forwardSRow : SRow :=
  { activityNumber := .str "Prod1", activity := .str "A", milestone := .str "M",
    start := 1731024000, stop := 1731196800, responsible := .str "R" }

/-- C1 witness: on a dataset whose only row runs forwards in time, the
inverted window 10/11/2024 00:00 .. 08/11/2024 00:00 makes the run fail with
the wrapped `EmptyResultError` of the range-filter stage. -/
theorem c1_inverted_window_amended_witness :
    read_and_process_data forwardFile "10/11/2024 00:00" "08/11/2024 00:00" =
      .error (.processingError (.emptyResult "no tasks in the date range")) :=
  (c1_inverted_window_amended ⟨1731196800, 1731024000⟩ [forwardSRow]).2.2
    forwardFile "10/11/2024 00:00" "08/11/2024 00:00" forwardTable
    (dropEmptyRows forwardTable) [forwardSRow] [forwardSRow]
    1731196800 1731024000 rfl rfl rfl rfl rfl rfl rfl (by decide) (by decide)

/-! ## Order preservation (C9) -/

/-- Forget the derived duration field of a clean row. -/
def stripDuration (c : CleanRow) : SRow :=
  { activityNumber := c.activityNumber, activity := c.activity,
    milestone := c.milestone, start := c.start, stop := c.stop,
    responsible := c.responsible }

/-- The identifying (never rewritten) cells of a normalized row. -/
def srowIdent (r : SRow) : Cell × Cell × Cell × Cell :=
  (r.activityNumber, r.activity, r.milestone, r.responsible)

/-- The identifying (never rewritten) cells of a decoded row. -/
def rawIdent (r : RawRow) : Cell × Cell × Cell × Cell :=
  (r.activityNumber, r.activity, r.milestone, r.responsible)

theorem toSRow_ident {r : RawRow} {sr : SRow} (h : toSRow r = some sr) :
    srowIdent sr = rawIdent r := by
  rw [toSRow] at h
  cases hs : parse_dates r.startDate with
  | none => rw [hs] at h; exact Option.noConfusion h
  | some s =>
    cases he : parse_dates r.endDate with
    | none => rw [hs, he] at h; exact Option.noConfusion h
    | some e =>
      rw [hs, he] at h
      simp only [Option.some.injEq] at h
      rw [← h]
      rfl

theorem filterMap_map_sublist {α β γ : Type} (f : α → Option β) (g : β → γ) (h : α → γ)
    (hfg : ∀ a b, f a = some b → g b = h a) :
    ∀ l : List α, ((l.filterMap f).map g).Sublist (l.map h)
  | [] => by simp
  | hd :: tl => by
    cases hf : f hd with
    | none =>
      rw [List.map_cons, List.filterMap_cons_none hf]
      exact (filterMap_map_sublist f g h hfg tl).cons (h hd)
    | some b =>
      rw [List.map_cons, List.filterMap_cons_some hf, List.map_cons, hfg hd b hf]
      exact (filterMap_map_sublist f g h hfg tl).cons₂ (h hd)

theorem clean_and_validate_data_ok {t t' : RawTable}
    (h : clean_and_validate_data t = .ok t') : t' = dropEmptyRows t := by
  rw [clean_and_validate_data_eq] at h
  split at h
  · simp only [Except.ok.injEq] at h
    exact h.symm
  · exact Except.noConfusion h

theorem dropNullDatesStage_ok {rows : List RawRow} {srows : List SRow}
    (h : dropNullDatesStage rows = .ok srows) : srows = rows.filterMap toSRow := by
  rw [dropNullDatesStage] at h
  split at h
  · exact Except.noConfusion h
  · simp only [Except.ok.injEq] at h
    exact h.symm

theorem prodStage_ok {rows kept : List SRow} (h : prodStage rows = .ok kept) :
    kept = prodFilter rows := by
  rw [prodStage] at h
  split at h
  · exact Except.noConfusion h
  · simp only [Except.ok.injEq] at h
    exact h.symm

theorem rangeStage_ok {w : DateWindow} {rows kept : List SRow}
    (h : rangeStage w rows = .ok kept) : kept = rangeFilter w rows := by
  rw [rangeStage] at h
  split at h
  · exact Except.noConfusion h
  · simp only [Except.ok.injEq] at h
    exact h.symm

theorem pipelineBody_ok {f : FileInput} {sF eF : String} {out : List CleanRow}
    (h : pipelineBody f sF eF = .ok out) :
    ∃ (t t' : RawTable) (srows prodRows : List SRow) (wf wt : Timestamp)
      (ranged : List SRow),
      decodeStage f = .ok t ∧ clean_and_validate_data t = .ok t' ∧
      dropNullDatesStage t'.rows = .ok srows ∧ prodStage srows = .ok prodRows ∧
      parseBoundary "start" sF = .ok wf ∧ parseBoundary "end" eF = .ok wt ∧
      rangeStage ⟨wf, wt⟩ prodRows = .ok ranged ∧ out = computeDurations ranged := by
  rw [pipelineBody] at h
  obtain ⟨t, h1, h⟩ := except_bind_ok.mp h
  obtain ⟨t', h2, h⟩ := except_bind_ok.mp h
  obtain ⟨srows, h3, h⟩ := except_bind_ok.mp h
  obtain ⟨prodRows, h4, h⟩ := except_bind_ok.mp h
  obtain ⟨wf, h5, h⟩ := except_bind_ok.mp h
  obtain ⟨wt, h6, h⟩ := except_bind_ok.mp h
  obtain ⟨ranged, h7, h⟩ := except_bind_ok.mp h
  refine ⟨t, t', srows, prodRows, wf, wt, ranged, h1, h2, h3, h4, h5, h6, h7, ?_⟩
  simpa [Pure.pure, Except.pure] using h.symm

theorem read_and_process_data_ok {f : FileInput} {sF eF : String} {out : List CleanRow}
    (h : read_and_process_data f sF eF = .ok out) :
    f.pathExists = true ∧ pipelineBody f sF eF = .ok out := by
  rw [read_and_process_data] at h
  split at h
  · rename_i hex
    refine ⟨hex, ?_⟩
    cases hb : pipelineBody f sF eF with
    | ok a => rw [hb, wrapFailure] at h; exact h
    | error e => rw [hb] at h; exact Except.noConfusion h
  · exact Except.noConfusion h

/-- C9: every successful run returns an order-preserving subsequence of the
decoded input rows — each stage only removes rows or rewrites their fields
(parsing dates, adding the duration), never reordering or duplicating: the
output rows, with the derived duration stripped, form a sublist of the
date-normalized decoded rows, and their identifying cells form a sublist of
the decoded rows' identifying cells in original order. -/
theorem c9_order_preserving (f : FileInput) (sF eF : String) (t : RawTable)
    (out : List CleanRow)
    (hdec : decodeStage f = .ok t)
    (hrun : read_and_process_data f sF eF = .ok out) :
    ((out.map stripDuration).Sublist (t.rows.filterMap toSRow)) ∧
    ((out.map fun c => srowIdent (stripDuration c)).Sublist
      (t.rows.map rawIdent)) := by
  obtain ⟨-, hbody⟩ := read_and_process_data_ok hrun
  obtain ⟨t0, t', srows, prodRows, wf, wt, ranged, h1, h2, h3, h4, -, -, h7, hout⟩ :=
    pipelineBody_ok hbody
  rw [h1] at hdec
  cases hdec
  have hstrip : out.map stripDuration = ranged := by
    rw [hout, computeDurations, List.map_map]
    rw [show (stripDuration ∘ addDuration) = id from funext fun r => rfl, List.map_id]
  have hchain : ranged.Sublist srows := by
    rw [rangeStage_ok h7, prodStage_ok h4]
    exact (List.filter_sublist _).trans (List.filter_sublist _)
  have hsrows : srows = (dropEmptyRows t).rows.filterMap toSRow := by
    rw [dropNullDatesStage_ok h3, clean_and_validate_data_ok h2]
  constructor
  · rw [hstrip]
    refine hchain.trans ?_
    rw [hsrows]
    exact (List.filter_sublist t.rows).filterMap toSRow
  · have : (out.map fun c => srowIdent (stripDuration c)) = ranged.map srowIdent := by
      rw [← hstrip, List.map_map]
      rfl
    rw [this]
    refine ((hchain.map srowIdent).trans ?_)
    rw [hsrows]
    refine (filterMap_map_sublist toSRow srowIdent rawIdent
      (fun a b hab => toSRow_ident hab) _).trans ?_
    exact (List.filter_sublist t.rows).map rawIdent

/-- A forward Prod row inside the witness window. -/
def sampleRawRow : RawRow :=
  { activityNumber := .str "Prod1", activity := .str "A", milestone := .str "M",
    startDate := .str "08/11/24 18:00", endDate := .str "09/11/24 20:00",
    responsible := .str "R" }

/-- A second row that the prefix filter removes. -/
def sampleRawRow2 : RawRow :=
  { activityNumber := .str "Dev1", activity := .str "B", milestone := .str "N",
    startDate := .str "08/11/24 18:00", endDate := .str "09/11/24 20:00",
    responsible := .str "S" }

/-- The decoded two-row witness table. -/
def sampleTable : RawTable :=
  { columns := required_columns, rows := [sampleRawRow, sampleRawRow2] }

/-- A CSV file decoding (under UTF-8) to `sampleTable`. -/
def sampleFile : FileInput :=
  { path := "runbook.csv", pathExists := true, ext := ".csv",
    xlsxRead := none, xlsRead := none,
    csvRead := fun enc => if enc = "utf-8" then some sampleTable else none }

/-- The clean row produced from `sampleRawRow`. -/
def sampleCleanRow : CleanRow :=
  { activityNumber := .str "Prod1", activity := .str "A", milestone := .str "M",
    start := 1731088800, stop := 1731182400, responsible := .str "R",
    durationHours := ((1731182400 - 1731088800 : Int) : ℚ) / 3600 }

/-- C9 witness: a successful concrete run whose single output row is a
subsequence of the two decoded rows. -/
theorem c9_order_preserving_witness :
    (([sampleCleanRow].map stripDuration).Sublist
      (sampleTable.rows.filterMap toSRow)) ∧
    (([sampleCleanRow].map fun c => srowIdent (stripDuration c)).Sublist
      (sampleTable.rows.map rawIdent)) :=
  c9_order_preserving sampleFile "08/11/2024 17:00" "10/11/2024 23:59" sampleTable
    [sampleCleanRow] rfl rfl

end RunBookTimeline
